import Mathlib

/-!
Verification of the mesh-topology core of the fritzbox telegraf input plugin
(`plugins/inputs/fritzbox/meshlist.go`).  The Go data structures are embedded
as plain Lean structures, the pointer-chained `meshPath` as an inductive type,
and the two resolver entry points as executable functions.  The recursive
coordinator walk `collectMasterSlavePaths` is embedded with an explicit fuel
parameter; the entry point instantiates the fuel at `Nodes.length + 1` and a
stabilisation theorem shows the result is independent of the fuel once it
reaches the cycle-guard bound, which is exactly the termination argument of
the source recursion.
-/

namespace FritzboxPlugin

/-- UTF-8 encoding of one character as the list of its byte values.  The Go
runtime hands `uuid.Parse` the byte view of the candidate string, so the
embedding of the name check below works on bytes, not on code points. -/
def utf8EncodeCharNat (c : Char) : List Nat :=
  let n := c.toNat
  if n < 128 then [n]
  else if n < 2048 then [192 + n / 64, 128 + n % 64]
  else if n < 65536 then [224 + n / 4096, 128 + n / 64 % 64, 128 + n % 64]
  else [240 + n / 262144, 128 + n / 4096 % 64, 128 + n / 64 % 64, 128 + n % 64]

/-- The byte values of a string, in order. -/
def strBytes (s : String) : List Nat :=
  (s.data.map utf8EncodeCharNat).flatten

/-- Success condition of `xtob` in google/uuid: the byte is an ASCII hex
digit (`0`-`9`, `a`-`f`, `A`-`F`). -/
def isHexByte (b : Nat) : Bool :=
  (48 ≤ b && b ≤ 57) || (97 ≤ b && b ≤ 102) || (65 ≤ b && b ≤ 70)

/-- Shape check of `google/uuid.Parse` on a canonically hyphenated
candidate: bytes 8, 13, 18 and 23 are `-` (45) and the sixteen byte pairs at
the fixed offsets are hex digits.  Offsets past 35 are never inspected,
mirroring the source, which ignores the final byte of a 38-byte `{...}`
candidate. -/
def uuidShapeOk (s : List Nat) : Bool :=
  s.getD 8 0 == 45 && s.getD 13 0 == 45 && s.getD 18 0 == 45 && s.getD 23 0 == 45 &&
  ([0, 2, 4, 6, 9, 11, 14, 16, 19, 21, 24, 26, 28, 30, 32, 34].all fun x =>
    isHexByte (s.getD x 0) && isHexByte (s.getD (x + 1) 0))

/-- ASCII lower-casing of one byte, used for the case-insensitive
`urn:uuid:` prefix comparison of `google/uuid.Parse`. -/
def asciiLowerByte (b : Nat) : Nat :=
  if 65 ≤ b && b ≤ 90 then b + 32 else b

/-- The byte values of the string `urn:uuid:`. -/
def urnUuidPrefixBytes : List Nat := [117, 114, 110, 58, 117, 117, 105, 100, 58]

/-- Embedding of the success condition of `google/uuid.Parse` (the external
dependency used by `hasValidDeviceName`): a candidate parses when its byte
length is 36 (hyphenated), 45 (`urn:uuid:` prefixed, compared
case-insensitively), 38 (brace wrapped; the source only skips the first byte
and never checks the last) or 32 (plain hex). -/
def uuidParseOk (s : List Nat) : Bool :=
  if s.length == 36 then uuidShapeOk s
  else if s.length == 45 then
    ((s.take 9).map asciiLowerByte == urnUuidPrefixBytes) && uuidShapeOk (s.drop 9)
  else if s.length == 38 then uuidShapeOk (s.drop 1)
  else if s.length == 32 then s.all isHexByte
  else false

/-- One link record of the mesh list snapshot (`meshListNodeLink`). -/
structure meshListNodeLink where
  State : String
  Node1Uid : String
  Node2Uid : String
  NodeInterface1Uid : String
  NodeInterface2Uid : String
  MaxDataRateRx : Int
  MaxDataRateTx : Int
  CurDataRateRx : Int
  CurDataRateTx : Int
deriving DecidableEq

/-- One interface record (`meshListNodeInterface`).  The source field `Type`
is spelled `Type'` here because `Type` is reserved in Lean. -/
structure meshListNodeInterface where
  Uid : String
  Name : String
  Type' : String
  NodeLinks : List meshListNodeLink
deriving DecidableEq

/-- One device record (`meshListNode`). -/
structure meshListNode where
  Uid : String
  DeviceName : String
  IsMeshed : Bool
  MeshRole : String
  NodeInterfaces : List meshListNodeInterface
deriving DecidableEq

/-- The deterministic content of the lazily built `nodeTable` map: the Go
loop inserts every node under its uid in snapshot order, a later insert for
the same uid overwriting an earlier one. -/
def buildNodeTable (nodes : List meshListNode) : String → Option meshListNode :=
  nodes.foldl (fun tbl node => fun uid => if uid = node.Uid then some node else tbl uid) (fun _ => none)

/-- The decoded mesh list (`meshList`).  The unexported `nodeTable` field is
the lazily built lookup cache: `none` models the Go nil map, `some tbl`
models a built map. -/
structure meshList where
  SchemaVersion : String
  Nodes : List meshListNode
  nodeTable : Option (String → Option meshListNode) := none

/-- Pure view of `lookupNode`: what any lookup returns once the table is
built (the cache, being write-once and deterministic, never changes this
value; the stateful variant `lookupNodeS` models the cache itself). -/
def meshList.lookupNode (m : meshList) (uid : String) : Option meshListNode :=
  buildNodeTable m.Nodes uid

/-- Stateful embedding of `lookupNode`: on a nil table it builds and stores
the table, then answers from it; on a built table it answers directly. -/
def meshList.lookupNodeS (m : meshList) (uid : String) : Option meshListNode × meshList :=
  match m.nodeTable with
  | none =>
      let tbl := buildNodeTable m.Nodes
      (tbl uid, { m with nodeTable := some tbl })
  | some tbl => (tbl uid, m)

/-- The model state after its lookup table has been built. -/
def meshList.builtOf (m : meshList) : meshList :=
  { m with nodeTable := some (buildNodeTable m.Nodes) }

/-- The reachable cache states of a model: either the table was never built
(nil map) or it holds exactly the table built from the nodes. -/
def meshList.cacheOK (m : meshList) : Prop :=
  m.nodeTable = none ∨ m.nodeTable = some (buildNodeTable m.Nodes)

/-- Predicate `hasValidDeviceName`: a non-empty device name that
`uuid.Parse` rejects. -/
def meshListNode.hasValidDeviceName (node : meshListNode) : Bool :=
  if node.DeviceName == "" then false
  else !uuidParseOk (strBytes node.DeviceName)

/-- Predicate `isMaster`. -/
def meshListNode.isMaster (node : meshListNode) : Bool :=
  node.IsMeshed && node.MeshRole == "master"

/-- Predicate `isSlave`. -/
def meshListNode.isSlave (node : meshListNode) : Bool :=
  node.IsMeshed && node.MeshRole == "slave"

/-- Predicate `isConnected`. -/
def meshListNodeLink.isConnected (link : meshListNodeLink) : Bool :=
  link.State == "CONNECTED"

/-- Predicate `isConnectedTo`. -/
def meshListNodeLink.isConnectedTo (link : meshListNodeLink) (nodeInterface : meshListNodeInterface) : Bool :=
  link.isConnected && (link.NodeInterface1Uid == nodeInterface.Uid || link.NodeInterface2Uid == nodeInterface.Uid)

/-- The parent-chained traversal step (`meshPath`): `root` is a step with a
nil parent pointer, `cons` a step whose parent is the given path. -/
inductive meshPath where
  | root (node : meshListNode) (nodeInterface : meshListNodeInterface) (nodeLink : meshListNodeLink) : meshPath
  | cons (parent : meshPath) (node : meshListNode) (nodeInterface : meshListNodeInterface) (nodeLink : meshListNodeLink) : meshPath
deriving DecidableEq

/-- The parent pointer of a step (`nil` on a seed step). -/
def meshPath.parent : meshPath → Option meshPath
  | .root _ _ _ => none
  | .cons q _ _ _ => some q

/-- The device of a step. -/
def meshPath.node : meshPath → meshListNode
  | .root n _ _ => n
  | .cons _ n _ _ => n

/-- The interface of a step. -/
def meshPath.nodeInterface : meshPath → meshListNodeInterface
  | .root _ i _ => i
  | .cons _ _ i _ => i

/-- The link of a step. -/
def meshPath.nodeLink : meshPath → meshListNodeLink
  | .root _ _ l => l
  | .cons _ _ _ l => l

/-- `getRoot`: follow parent pointers to the seed step. -/
def meshPath.getRoot : meshPath → meshPath
  | .root n i l => .root n i l
  | .cons q _ _ _ => q.getRoot

/-- `getPeerNodeUid`: the uid of the other end of the step's link; when the
step's device is on neither side, the side-1 uid is returned. -/
def meshPath.getPeerNodeUid (path : meshPath) : String :=
  if path.node.Uid = path.nodeLink.Node1Uid then path.nodeLink.Node2Uid else path.nodeLink.Node1Uid

/-- `getDataRates`: the four rate counters of the step's link, oriented from
the step's device (unswapped when the device is side 1, swapped otherwise). -/
def meshPath.getDataRates (path : meshPath) : Int × Int × Int × Int :=
  if path.node.Uid = path.nodeLink.Node1Uid then
    (path.nodeLink.MaxDataRateRx, path.nodeLink.MaxDataRateTx, path.nodeLink.CurDataRateRx, path.nodeLink.CurDataRateTx)
  else
    (path.nodeLink.MaxDataRateTx, path.nodeLink.MaxDataRateRx, path.nodeLink.CurDataRateTx, path.nodeLink.CurDataRateRx)

/-- `contains`: whether some step of the chain carries a device with the
given device's uid. -/
def meshPath.contains : meshPath → meshListNode → Bool
  | .root n _ _, node => n.Uid == node.Uid
  | .cons q n _ _, node => n.Uid == node.Uid || q.contains node

/-- The device uids of a chain, deepest step first. -/
def meshPath.chainUids : meshPath → List String
  | .root n _ _ => [n.Uid]
  | .cons q n _ _ => n.Uid :: q.chainUids

/-- Embedding of `collectMasterSlavePaths`.  The Go recursion has no fuel
argument; the explicit `Nat` here only bounds the recursion depth for Lean.
The source recursion is guarded by `path.contains`, which bounds its depth
by the number of distinct device uids, so any fuel at least
`(m.Nodes.map Uid).dedup.length + 1` computes the source's value (proved
below as the stabilisation theorem); the entry point passes
`m.Nodes.length + 1`, which always suffices. -/
def meshList.collectMasterSlavePaths (m : meshList) : Nat → List meshPath → meshPath → List meshPath
  | 0, paths, _ => paths
  | Nat.succ fuel, paths, path =>
    match m.lookupNode path.getPeerNodeUid with
    | none => paths
    | some peerNode =>
      if path.contains peerNode then paths
      else if peerNode.isSlave && peerNode.hasValidDeviceName then
        peerNode.NodeInterfaces.foldl (fun updatedPaths peerInterface =>
          peerInterface.NodeLinks.foldl (fun updatedPaths peerLink =>
            if peerLink.isConnectedTo path.nodeInterface then
              updatedPaths ++ [meshPath.cons path peerNode peerInterface peerLink]
            else updatedPaths) updatedPaths) paths
      else
        peerNode.NodeInterfaces.foldl (fun updatedPaths peerInterface =>
          peerInterface.NodeLinks.foldl (fun updatedPaths peerLink =>
            if peerLink.isConnected then
              m.collectMasterSlavePaths fuel updatedPaths (meshPath.cons path peerNode peerInterface peerLink)
            else updatedPaths) updatedPaths) paths

/-- The relay branch of `collectMasterSlavePaths` (its `else` arm), named so
that theorems can say "the walk recurses through the peer's connected
links". -/
def meshList.collectRelayStep (m : meshList) (fuel : Nat) (paths : List meshPath) (path : meshPath) (peerNode : meshListNode) : List meshPath :=
  peerNode.NodeInterfaces.foldl (fun updatedPaths peerInterface =>
    peerInterface.NodeLinks.foldl (fun updatedPaths peerLink =>
      if peerLink.isConnected then
        m.collectMasterSlavePaths fuel updatedPaths (meshPath.cons path peerNode peerInterface peerLink)
      else updatedPaths) updatedPaths) paths

/-- The results the terminal (slave) branch of `collectMasterSlavePaths`
appends for a qualifying peer: one step per (interface, connected link) pair
of the peer whose link touches the arrival interface, recording the
peer-side link. -/
def slaveTerminalResults (path : meshPath) (peerNode : meshListNode) : List meshPath :=
  peerNode.NodeInterfaces.flatMap fun peerInterface =>
    (peerInterface.NodeLinks.filter fun peerLink => peerLink.isConnectedTo path.nodeInterface).map
      fun peerLink => meshPath.cons path peerNode peerInterface peerLink

/-- Embedding of `getMasterSlavePaths` with the collect fuel as a
parameter. -/
def meshList.getMasterSlavePathsFuel (m : meshList) (fuel : Nat) : List meshPath :=
  m.Nodes.foldl (fun paths masterNode =>
    if masterNode.isMaster then
      masterNode.NodeInterfaces.foldl (fun paths masterInterface =>
        masterInterface.NodeLinks.foldl (fun paths masterLink =>
          if masterLink.isConnected then
            m.collectMasterSlavePaths fuel paths (meshPath.root masterNode masterInterface masterLink)
          else paths) paths) paths
    else paths) []

/-- Embedding of `getMasterSlavePaths`: seed one path per connected link of
every master node, in snapshot order, and collect. -/
def meshList.getMasterSlavePaths (m : meshList) : List meshPath :=
  m.getMasterSlavePathsFuel (m.Nodes.length + 1)

/-- The observable effect of the peer-interface loop in `getClientPaths`.
In the source, one `client` object is allocated per client link; every
matching peer interface mutates `client.parent` and appends the same
pointer, so the loop's effect is a count of appended references together
with the last matching interface (the one whose peer step all appended
references finally carry). -/
def clientAppendState (clientLink : meshListNodeLink) (peerInterfaces : List meshListNodeInterface) : Nat × Option meshListNodeInterface :=
  peerInterfaces.foldl (fun st peerInterface =>
    if clientLink.isConnectedTo peerInterface then (st.1 + 1, some peerInterface) else st) (0, none)

/-- Embedding of `getClientPaths`.  Per connected link of a qualifying
client, each matching peer interface appends one reference to the single
`client` object after mutating its parent, so the returned list holds one
entry per match, all equal, and their shared parent step carries the last
matching peer interface. -/
def meshList.getClientPaths (m : meshList) (clientTypes : List String) : List meshPath :=
  m.Nodes.foldl (fun paths clientNode =>
    if !clientNode.IsMeshed && clientNode.hasValidDeviceName then
      clientNode.NodeInterfaces.foldl (fun paths clientInterface =>
        if clientTypes.isEmpty || clientTypes.any (fun clientType => clientInterface.Type' == clientType) then
          clientInterface.NodeLinks.foldl (fun paths clientLink =>
            if clientLink.isConnected then
              match m.lookupNode (meshPath.root clientNode clientInterface clientLink).getPeerNodeUid with
              | none => paths
              | some peerNode =>
                match clientAppendState clientLink peerNode.NodeInterfaces with
                | (_, none) => paths
                | (count, some lastPeerInterface) =>
                    paths ++ List.replicate count
                      (meshPath.cons (meshPath.root peerNode lastPeerInterface clientLink)
                        clientNode clientInterface clientLink)
            else paths) paths
        else paths) paths
    else paths) []

/-- Reference rendering of `getClientPaths` as a comprehension: for every
qualifying client device, filter-passing interface and connected link whose
peer is present, one result per peer interface the link touches, every such
result being the same two-step chain whose parent step carries the LAST
touching peer interface. -/
def meshList.getClientPathsRef (m : meshList) (clientTypes : List String) : List meshPath :=
  m.Nodes.flatMap fun clientNode =>
    if !clientNode.IsMeshed && clientNode.hasValidDeviceName then
      clientNode.NodeInterfaces.flatMap fun clientInterface =>
        if clientTypes.isEmpty || clientTypes.any (fun clientType => clientInterface.Type' == clientType) then
          clientInterface.NodeLinks.flatMap fun clientLink =>
            if clientLink.isConnected then
              match m.lookupNode (meshPath.root clientNode clientInterface clientLink).getPeerNodeUid with
              | none => []
              | some peerNode =>
                match (peerNode.NodeInterfaces.filter fun peerInterface => clientLink.isConnectedTo peerInterface).getLast? with
                | none => []
                | some lastPeerInterface =>
                    (peerNode.NodeInterfaces.filter fun peerInterface => clientLink.isConnectedTo peerInterface).map
                      fun _ => meshPath.cons (meshPath.root peerNode lastPeerInterface clientLink)
                        clientNode clientInterface clientLink
            else []
        else []
    else []

/-- Stateful embedding of `collectMasterSlavePaths`, threading the lookup
cache exactly as the Go pointer receiver does. -/
def meshList.collectMasterSlavePathsS : meshList → Nat → List meshPath → meshPath → List meshPath × meshList
  | m, 0, paths, _ => (paths, m)
  | m, Nat.succ fuel, paths, path =>
    match m.lookupNodeS path.getPeerNodeUid with
    | (none, m1) => (paths, m1)
    | (some peerNode, m1) =>
      if path.contains peerNode then (paths, m1)
      else if peerNode.isSlave && peerNode.hasValidDeviceName then
        (peerNode.NodeInterfaces.foldl (fun updatedPaths peerInterface =>
          peerInterface.NodeLinks.foldl (fun updatedPaths peerLink =>
            if peerLink.isConnectedTo path.nodeInterface then
              updatedPaths ++ [meshPath.cons path peerNode peerInterface peerLink]
            else updatedPaths) updatedPaths) paths, m1)
      else
        peerNode.NodeInterfaces.foldl (fun (acc : List meshPath × meshList) peerInterface =>
          peerInterface.NodeLinks.foldl (fun (acc : List meshPath × meshList) peerLink =>
            if peerLink.isConnected then
              meshList.collectMasterSlavePathsS acc.2 fuel acc.1 (meshPath.cons path peerNode peerInterface peerLink)
            else acc) acc) (paths, m1)

/-- Stateful embedding of `getMasterSlavePaths`. -/
def meshList.getMasterSlavePathsS (m : meshList) : List meshPath × meshList :=
  m.Nodes.foldl (fun (acc : List meshPath × meshList) masterNode =>
    if masterNode.isMaster then
      masterNode.NodeInterfaces.foldl (fun (acc : List meshPath × meshList) masterInterface =>
        masterInterface.NodeLinks.foldl (fun (acc : List meshPath × meshList) masterLink =>
          if masterLink.isConnected then
            acc.2.collectMasterSlavePathsS (m.Nodes.length + 1) acc.1 (meshPath.root masterNode masterInterface masterLink)
          else acc) acc) acc
    else acc) ([], m)

/-- Stateful embedding of `getClientPaths`. -/
def meshList.getClientPathsS (m : meshList) (clientTypes : List String) : List meshPath × meshList :=
  m.Nodes.foldl (fun (acc : List meshPath × meshList) clientNode =>
    if !clientNode.IsMeshed && clientNode.hasValidDeviceName then
      clientNode.NodeInterfaces.foldl (fun (acc : List meshPath × meshList) clientInterface =>
        if clientTypes.isEmpty || clientTypes.any (fun clientType => clientInterface.Type' == clientType) then
          clientInterface.NodeLinks.foldl (fun (acc : List meshPath × meshList) clientLink =>
            if clientLink.isConnected then
              match acc.2.lookupNodeS (meshPath.root clientNode clientInterface clientLink).getPeerNodeUid with
              | (none, m1) => (acc.1, m1)
              | (some peerNode, m1) =>
                match clientAppendState clientLink peerNode.NodeInterfaces with
                | (_, none) => (acc.1, m1)
                | (count, some lastPeerInterface) =>
                    (acc.1 ++ List.replicate count
                      (meshPath.cons (meshPath.root peerNode lastPeerInterface clientLink)
                        clientNode clientInterface clientLink), m1)
            else acc) acc
        else acc) acc
    else acc) ([], m)

/-- The distinct uids of the snapshot that do not yet occur on the chain of
the given path: the recursion measure of the coordinator walk. -/
def meshList.freeUids (m : meshList) (path : meshPath) : List String :=
  ((m.Nodes.map meshListNode.Uid).dedup).filter fun uid => decide (uid ∉ path.chainUids)

/-- The interface uid of a step's parent, if any (used by the client-path
counterexample). -/
def parentInterfaceUid : meshPath → Option String
  | .root _ _ _ => none
  | .cons q _ _ _ => some q.nodeInterface.Uid

/-- Swap the two directions within the max-rate pair and within the
current-rate pair of a rate 4-tuple. -/
def dataRateSwap (r : Int × Int × Int × Int) : Int × Int × Int × Int :=
  (r.2.1, r.1, r.2.2.2, r.2.2.1)

/-- Demo snapshot: one coordinator `m` and one validly named repeater `s`
joined by one connected link, mirrored on both interfaces. -/
def wLink : meshListNodeLink := ⟨"CONNECTED", "m", "s", "mi", "si", 100, 200, 30, 40⟩

/-- Coordinator-side interface of the demo snapshot. -/
def wMasterIf : meshListNodeInterface := ⟨"mi", "ap", "WLAN", [wLink]⟩

/-- Repeater-side interface of the demo snapshot. -/
def wSlaveIf : meshListNodeInterface := ⟨"si", "uplink", "WLAN", [wLink]⟩

/-- Coordinator device of the demo snapshot. -/
def wMaster : meshListNode := ⟨"m", "master1", true, "master", [wMasterIf]⟩

/-- Repeater device of the demo snapshot. -/
def wSlave : meshListNode := ⟨"s", "slave1", true, "slave", [wSlaveIf]⟩

/-- The demo snapshot. -/
def wModel : meshList := ⟨"4.7", [wMaster, wSlave], none⟩

/-- The seed step of the demo coordinator walk. -/
def wSeed : meshPath := meshPath.root wMaster wMasterIf wLink

/-- The single result of the demo coordinator walk. -/
def wResult : meshPath := meshPath.cons wSeed wSlave wSlaveIf wLink

/-- A perspective step of the repeater side of the demo link. -/
def wSlaveView : meshPath := meshPath.root wSlave wSlaveIf wLink

/-- Duplicate-id snapshot, first occurrence. -/
def cexDupFirst : meshListNode := ⟨"a", "first", false, "", []⟩

/-- Duplicate-id snapshot, second occurrence. -/
def cexDupSecond : meshListNode := ⟨"a", "second", false, "", []⟩

/-- Snapshot with two devices sharing uid `a`. -/
def cexDupModel : meshList := ⟨"1", [cexDupFirst, cexDupSecond], none⟩

/-- Client-path counterexample: the client's connected link; its interface
uids are `ci` (client side) and `ri` (peer side). -/
def cexClientLink : meshListNodeLink := ⟨"CONNECTED", "c", "r", "ci", "ri", 1, 2, 3, 4⟩

/-- The client's interface. -/
def cexClientIf : meshListNodeInterface := ⟨"ci", "wifi", "WLAN", [cexClientLink]⟩

/-- A peer interface whose uid `ci` also matches the link (the touch test
accepts either side's interface uid). -/
def cexPeerIfA : meshListNodeInterface := ⟨"ci", "apA", "WLAN", []⟩

/-- The peer interface with uid `ri`. -/
def cexPeerIfB : meshListNodeInterface := ⟨"ri", "apB", "WLAN", []⟩

/-- The client device. -/
def cexClient : meshListNode := ⟨"c", "client1", false, "", [cexClientIf]⟩

/-- The peer device with two interfaces both touching the client link. -/
def cexPeer : meshListNode := ⟨"r", "router1", true, "master", [cexPeerIfA, cexPeerIfB]⟩

/-- Snapshot for the client-path counterexample. -/
def cexClientModel : meshList := ⟨"1", [cexClient, cexPeer], none⟩

/-- The uids of the peer interfaces touched by the counterexample link. -/
def cexMatchingUids : List String :=
  (cexPeer.NodeInterfaces.filter fun peerInterface => cexClientLink.isConnectedTo peerInterface).map
    meshListNodeInterface.Uid

/-- UUID-named relay snapshot: link from coordinator `m8` to the UUID-named
device `u8`. -/
def w8LinkA : meshListNodeLink := ⟨"CONNECTED", "m8", "u8", "mi8", "ui8a", 1, 1, 1, 1⟩

/-- Link from the UUID-named device `u8` on to the named repeater `s8`. -/
def w8LinkB : meshListNodeLink := ⟨"CONNECTED", "u8", "s8", "ui8b", "si8", 2, 2, 2, 2⟩

/-- Coordinator-side interface of the relay snapshot. -/
def w8MasterIf : meshListNodeInterface := ⟨"mi8", "ap", "WLAN", [w8LinkA]⟩

/-- Uplink interface of the UUID-named device. -/
def w8RelayIfA : meshListNodeInterface := ⟨"ui8a", "uplink", "WLAN", [w8LinkA]⟩

/-- Downlink interface of the UUID-named device. -/
def w8RelayIfB : meshListNodeInterface := ⟨"ui8b", "ap", "WLAN", [w8LinkB]⟩

/-- Uplink interface of the named repeater `s8`. -/
def w8SlaveIf : meshListNodeInterface := ⟨"si8", "uplink", "WLAN", [w8LinkB]⟩

/-- Coordinator of the relay snapshot. -/
def w8Master : meshListNode := ⟨"m8", "master8", true, "master", [w8MasterIf]⟩

/-- A repeater whose display name is a syntactically valid UUID. -/
def w8Relay : meshListNode :=
  ⟨"u8", "12345678-1234-1234-1234-123456789abc", true, "slave", [w8RelayIfA, w8RelayIfB]⟩

/-- The validly named repeater behind the UUID-named one. -/
def w8Slave : meshListNode := ⟨"s8", "slave8", true, "slave", [w8SlaveIf]⟩

/-- The relay snapshot. -/
def w8Model : meshList := ⟨"4.7", [w8Master, w8Relay, w8Slave], none⟩

/-- The seed step of the relay snapshot's coordinator walk. -/
def w8Seed : meshPath := meshPath.root w8Master w8MasterIf w8LinkA

/-- The result of the relay snapshot's walk: through `u8`, terminating at
`s8`. -/
def w8Result : meshPath :=
  meshPath.cons (meshPath.cons w8Seed w8Relay w8RelayIfB w8LinkB) w8Slave w8SlaveIf w8LinkB

/-- Dangling-reference snapshot: one device linked to an absent uid. -/
def w9Link : meshListNodeLink := ⟨"CONNECTED", "x", "ghost", "xi", "gi", 0, 0, 0, 0⟩

/-- Interface of the dangling-reference snapshot. -/
def w9If : meshListNodeInterface := ⟨"xi", "ap", "WLAN", [w9Link]⟩

/-- The only device of the dangling-reference snapshot. -/
def w9Node : meshListNode := ⟨"x", "nodex", true, "master", [w9If]⟩

/-- The dangling-reference snapshot. -/
def w9Model : meshList := ⟨"1", [w9Node], none⟩

/-- The seed whose peer uid `ghost` is absent from the snapshot. -/
def w9Path : meshPath := meshPath.root w9Node w9If w9Link

/-- A step whose device is on neither side of its link. -/
def w9Off : meshPath := meshPath.root ⟨"z", "zed", false, "", []⟩ w9If w9Link

theorem foldl_invariant {α β : Type} (P : β → Prop) (f : β → α → β) :
    ∀ (l : List α) (init : β), P init → (∀ b a, a ∈ l → P b → P (f b a)) → P (l.foldl f init) := by
  intro l
  induction l with
  | nil => intro init h _; exact h
  | cons x xs ih =>
      intro init h hstep
      exact ih (f init x) (hstep init x (List.mem_cons_self x xs) h)
        (fun b a ha hb => hstep b a (List.mem_cons_of_mem x ha) hb)

theorem foldl_mem_invariant {α β : Type} (Q : β → Prop) (f : List β → α → List β) :
    ∀ (l : List α) (init : List β), (∀ q ∈ init, Q q) →
      (∀ b a, a ∈ l → (∀ q ∈ b, Q q) → ∀ q ∈ f b a, Q q) →
      ∀ q ∈ l.foldl f init, Q q :=
  fun l init hinit hstep => foldl_invariant (fun acc => ∀ q ∈ acc, Q q) f l init hinit hstep

theorem foldl_rel {α β γ : Type} (R : β → γ → Prop) (f : β → α → β) (g : γ → α → γ) :
    ∀ (l : List α) (b : β) (c : γ), R b c → (∀ b c a, a ∈ l → R b c → R (f b a) (g c a)) →
      R (l.foldl f b) (l.foldl g c) := by
  intro l
  induction l with
  | nil => intro b c h _; exact h
  | cons x xs ih =>
      intro b c h hstep
      exact ih (f b x) (g c x) (hstep b c x (List.mem_cons_self x xs) h)
        (fun b c a ha hbc => hstep b c a (List.mem_cons_of_mem x ha) hbc)

theorem foldl_step_append {α β : Type} (h : α → List β) (f : List β → α → List β)
    (hf : ∀ acc x, f acc x = acc ++ h x) :
    ∀ (l : List α) (init : List β), l.foldl f init = init ++ l.flatMap h := by
  intro l
  induction l with
  | nil => intro init; simp
  | cons x xs ih =>
      intro init
      simp only [List.foldl_cons, List.flatMap_cons, hf, ih, List.append_assoc]

theorem foldl_if_append {α β : Type} (c : α → Bool) (g : α → β) :
    ∀ (l : List α) (init : List β),
      l.foldl (fun acc x => if c x then acc ++ [g x] else acc) init = init ++ (l.filter c).map g := by
  intro l init
  rw [foldl_step_append (fun x => if c x then [g x] else [])]
  · congr 1
    induction l with
    | nil => rfl
    | cons x xs ih =>
        by_cases hx : c x = true
        · simp [hx, ih]
        · simp only [Bool.not_eq_true] at hx
          simp [hx, ih]
  · intro acc x
    by_cases hx : c x = true
    · simp [hx]
    · simp only [Bool.not_eq_true] at hx
      simp [hx]

theorem buildNodeTable_apply (uid : String) :
    ∀ (nodes : List meshListNode) (tbl : String → Option meshListNode),
      (nodes.foldl (fun tbl node => fun u => if u = node.Uid then some node else tbl u) tbl) uid
        = match nodes.reverse.find? (fun n => n.Uid == uid) with
          | some n => some n
          | none => tbl uid := by
  intro nodes
  induction nodes with
  | nil => intro tbl; rfl
  | cons n ns ih =>
      intro tbl
      simp only [List.foldl_cons, List.reverse_cons, List.find?_append, ih]
      rcases hfind : ns.reverse.find? (fun n => n.Uid == uid) with _ | found
      · by_cases h : n.Uid = uid
        · simp [hfind, List.find?_cons, h]
        · have h2 : ¬ uid = n.Uid := fun e => h e.symm
          simp [hfind, List.find?_cons, h, h2]
      · simp [hfind]

theorem lookupNode_eq_find (m : meshList) (uid : String) :
    m.lookupNode uid = m.Nodes.reverse.find? (fun n => n.Uid == uid) := by
  unfold meshList.lookupNode buildNodeTable
  rw [buildNodeTable_apply]
  rcases h : m.Nodes.reverse.find? (fun n => n.Uid == uid) with _ | found <;> simp [h]

theorem lookupNode_mem {m : meshList} {uid : String} {n : meshListNode}
    (h : m.lookupNode uid = some n) : n ∈ m.Nodes ∧ n.Uid = uid := by
  rw [lookupNode_eq_find] at h
  refine ⟨?_, ?_⟩
  · have := List.mem_of_find?_eq_some h
    simpa using this
  · have := List.find?_some h
    simpa using this

theorem contains_iff (p : meshPath) (n : meshListNode) :
    p.contains n = true ↔ n.Uid ∈ p.chainUids := by
  induction p with
  | root n0 i l =>
      simp only [meshPath.contains, meshPath.chainUids, beq_iff_eq, List.mem_singleton]
      exact eq_comm
  | cons q n0 i l ih =>
      simp only [meshPath.contains, meshPath.chainUids, Bool.or_eq_true, beq_iff_eq,
        List.mem_cons, ih]
      exact or_congr eq_comm Iff.rfl

theorem contains_false_not_mem {p : meshPath} {n : meshListNode}
    (h : p.contains n = false) : n.Uid ∉ p.chainUids := by
  intro hmem
  rw [← contains_iff] at hmem
  simp [h] at hmem

/-- Claim C1 (corrected): `lookupNode` returns exactly the result of
searching the snapshot backwards for the uid: the device with that id when
one exists, nothing otherwise — and when several devices share the id, the
LAST occurrence in snapshot order (the index build overwrites earlier
entries), not the first. -/
theorem C1_lookup_last_occurrence (m : meshList) (uid : String) :
    m.lookupNode uid = m.Nodes.reverse.find? (fun n => n.Uid == uid) :=
  lookupNode_eq_find m uid

/-- Claim C1 counterexample: in a snapshot with two devices of uid `a`, the
first occurrence is `cexDupFirst`, yet lookup returns the second occurrence,
refuting first-occurrence precedence. -/
theorem C1_counterexample :
    cexDupModel.Nodes.head? = some cexDupFirst ∧ cexDupFirst.Uid = "a" ∧
      cexDupModel.lookupNode "a" = some cexDupSecond ∧ cexDupSecond ≠ cexDupFirst := by
  refine ⟨rfl, rfl, by decide, by decide⟩

/-- Claim C6: `getDataRates` is direction-consistent.  For a link between
the device on side 1 and a distinct device on side 2, the side-1 perspective
sees the stored 4-tuple and the side-2 perspective sees it with the two
directions swapped within the max pair and within the current pair. -/
theorem C6_dataRates_direction_consistent (p q : meshPath)
    (hlink : q.nodeLink = p.nodeLink)
    (hp : p.node.Uid = p.nodeLink.Node1Uid)
    (hq : q.node.Uid = p.nodeLink.Node2Uid)
    (hne : p.nodeLink.Node1Uid ≠ p.nodeLink.Node2Uid) :
    q.getDataRates = dataRateSwap p.getDataRates := by
  unfold meshPath.getDataRates dataRateSwap
  rw [hlink, hp, hq]
  have : ¬ p.nodeLink.Node2Uid = p.nodeLink.Node1Uid := fun e => hne e.symm
  simp [this]

/-- Claim C6 witness: on the demo link, the repeater-side perspective sees
the coordinator-side 4-tuple with both pairs swapped. -/
theorem C6_witness : wSlaveView.getDataRates = dataRateSwap wSeed.getDataRates :=
  C6_dataRates_direction_consistent wSeed wSlaveView (by decide) (by decide) (by decide) (by decide)

theorem freeUids_cons (m : meshList) (path : meshPath) (pn : meshListNode)
    (i : meshListNodeInterface) (l : meshListNodeLink) :
    m.freeUids (meshPath.cons path pn i l)
      = (m.freeUids path).filter fun u => decide (u ≠ pn.Uid) := by
  unfold meshList.freeUids
  rw [List.filter_filter]
  congr 1
  funext u
  by_cases h1 : u = pn.Uid
  · simp [meshPath.chainUids, h1]
  · by_cases h2 : u ∈ path.chainUids <;> simp [meshPath.chainUids, h1, h2]

theorem uid_mem_freeUids {m : meshList} {path : meshPath} {pn : meshListNode}
    (hmem : pn ∈ m.Nodes) (hcon : path.contains pn = false) : pn.Uid ∈ m.freeUids path := by
  unfold meshList.freeUids
  rw [List.mem_filter]
  refine ⟨List.mem_dedup.mpr (List.mem_map_of_mem _ hmem), ?_⟩
  simpa using contains_false_not_mem hcon

theorem freeUids_cons_length {m : meshList} {path : meshPath} {pn : meshListNode}
    (i : meshListNodeInterface) (l : meshListNodeLink)
    (hmem : pn ∈ m.Nodes) (hcon : path.contains pn = false) :
    (m.freeUids (meshPath.cons path pn i l)).length < (m.freeUids path).length := by
  rw [freeUids_cons]
  have hnd : (m.freeUids path).Nodup := (List.nodup_dedup _).filter _
  have hin : pn.Uid ∈ m.freeUids path := uid_mem_freeUids hmem hcon
  have hpred : (fun u : String => decide (u ≠ pn.Uid)) = fun u : String => u != pn.Uid := by
    funext u
    by_cases h : u = pn.Uid <;> simp [h]
  rw [hpred, ← hnd.erase_eq_filter pn.Uid, List.length_erase_of_mem hin]
  have : 0 < (m.freeUids path).length := List.length_pos.mpr (List.ne_nil_of_mem hin)
  omega

theorem collect_stable (m : meshList) :
    ∀ (n : Nat) (path : meshPath) (paths : List meshPath) (fuel : Nat),
      (m.freeUids path).length + 1 ≤ n → n ≤ fuel →
      m.collectMasterSlavePaths fuel paths path = m.collectMasterSlavePaths n paths path := by
  intro n
  induction n with
  | zero => intro path paths fuel h1 h2; omega
  | succ n ih =>
      intro path paths fuel h1 h2
      rcases fuel with _ | f
      · omega
      have hf : n ≤ f := Nat.le_of_succ_le_succ h2
      show m.collectMasterSlavePaths (f + 1) paths path
          = m.collectMasterSlavePaths (n + 1) paths path
      simp only [meshList.collectMasterSlavePaths]
      rcases hlk : m.lookupNode path.getPeerNodeUid with _ | pn
      · simp only [hlk]
      simp only [hlk]
      rcases hct : path.contains pn with _ | _
      · rw [if_neg Bool.false_ne_true, if_neg Bool.false_ne_true]
        by_cases hsv : (pn.isSlave && pn.hasValidDeviceName) = true
        · rw [if_pos hsv, if_pos hsv]
        · rw [if_neg hsv, if_neg hsv]
          have hmem := (lookupNode_mem hlk).1
          have key : ∀ (pi : meshListNodeInterface) (pl : meshListNodeLink) (acc : List meshPath),
              m.collectMasterSlavePaths f acc (meshPath.cons path pn pi pl)
                = m.collectMasterSlavePaths n acc (meshPath.cons path pn pi pl) := by
            intro pi pl acc
            have hlt := freeUids_cons_length pi pl hmem hct
            have h1' : (m.freeUids (meshPath.cons path pn pi pl)).length + 1 ≤ n := by omega
            exact ih (meshPath.cons path pn pi pl) acc f h1' hf
          refine foldl_rel Eq _ _ pn.NodeInterfaces paths paths rfl ?_
          intro b c peerInterface _ hbc
          subst hbc
          refine foldl_rel Eq _ _ peerInterface.NodeLinks b b rfl ?_
          intro b2 c2 peerLink _ hbc2
          subst hbc2
          by_cases hc : peerLink.isConnected = true
          · rw [if_pos hc, if_pos hc]
            exact key peerInterface peerLink b2
          · rw [if_neg hc, if_neg hc]
      · rw [if_pos rfl, if_pos rfl]

/-- Claim C5: the coordinator walk terminates on every finite snapshot.  The
cycle guard bounds the recursion depth by the number of distinct device
uids, so once the fuel of the embedded recursion reaches that bound the
computed value no longer depends on it: the resolution is a total function
of the snapshot, even on redundant or circular link data. -/
theorem C5_walk_terminates (m : meshList) (paths : List meshPath) (path : meshPath) (fuel : Nat)
    (h : (m.Nodes.map meshListNode.Uid).dedup.length + 1 ≤ fuel) :
    m.collectMasterSlavePaths fuel paths path
      = m.collectMasterSlavePaths ((m.Nodes.map meshListNode.Uid).dedup.length + 1) paths path := by
  apply collect_stable
  · have : (m.freeUids path).length ≤ (m.Nodes.map meshListNode.Uid).dedup.length :=
      List.length_filter_le _ _
    omega
  · exact h

/-- Claim C5 witness: on the demo snapshot the walk's value with generous
fuel equals its value at the distinct-uid bound. -/
theorem C5_witness : wModel.collectMasterSlavePaths 10 [] wSeed
    = wModel.collectMasterSlavePaths ((wModel.Nodes.map meshListNode.Uid).dedup.length + 1) [] wSeed :=
  C5_walk_terminates wModel [] wSeed 10 (by decide)

theorem collect_slave_branch (m : meshList) (fuel : Nat) (paths : List meshPath) (path : meshPath)
    {pn : meshListNode} (hlk : m.lookupNode path.getPeerNodeUid = some pn)
    (hct : path.contains pn = false) (hsv : (pn.isSlave && pn.hasValidDeviceName) = true) :
    m.collectMasterSlavePaths (fuel + 1) paths path = paths ++ slaveTerminalResults path pn := by
  simp only [meshList.collectMasterSlavePaths, hlk, hct]
  rw [if_neg Bool.false_ne_true, if_pos hsv]
  unfold slaveTerminalResults
  exact foldl_step_append _ _ (fun acc peerInterface => foldl_if_append _ _ _ _) pn.NodeInterfaces paths

theorem collect_relay_branch (m : meshList) (fuel : Nat) (paths : List meshPath) (path : meshPath)
    {pn : meshListNode} (hlk : m.lookupNode path.getPeerNodeUid = some pn)
    (hct : path.contains pn = false) (hsv : (pn.isSlave && pn.hasValidDeviceName) = false) :
    m.collectMasterSlavePaths (fuel + 1) paths path = m.collectRelayStep fuel paths path pn := by
  simp only [meshList.collectMasterSlavePaths, hlk, hct]
  rw [if_neg Bool.false_ne_true, if_neg (by simp [hsv])]
  rfl

/-- Claim C3: when the walk reaches a validly named repeater peer, it
appends one terminal result per (interface, connected link) pair of the peer
whose link touches the arrival interface, each result recording the
peer-side mirrored link, and all matches are kept without de-duplication. -/
theorem C3_terminal_repeater_results (m : meshList) (fuel : Nat) (paths : List meshPath)
    (path : meshPath) (pn : meshListNode)
    (hlk : m.lookupNode path.getPeerNodeUid = some pn)
    (hct : path.contains pn = false)
    (hs : pn.isSlave = true) (hv : pn.hasValidDeviceName = true) :
    m.collectMasterSlavePaths (fuel + 1) paths path = paths ++ slaveTerminalResults path pn :=
  collect_slave_branch m fuel paths path hlk hct (by simp [hs, hv])

/-- Claim C3 witness: on the demo snapshot the walk step at the coordinator
seed appends exactly the peer-side terminal results for the repeater. -/
theorem C3_witness :
    wModel.collectMasterSlavePaths 2 [] wSeed = [] ++ slaveTerminalResults wSeed wSlave :=
  C3_terminal_repeater_results wModel 1 [] wSeed wSlave (by decide) (by decide) (by decide) (by decide)

theorem collect_results (m : meshList) :
    ∀ (fuel : Nat) (paths : List meshPath) (path : meshPath),
      (∀ q ∈ paths, q.parent.isSome = true ∧ q.node.isSlave = true ∧ q.node.hasValidDeviceName = true) →
      ∀ q ∈ m.collectMasterSlavePaths fuel paths path,
        q.parent.isSome = true ∧ q.node.isSlave = true ∧ q.node.hasValidDeviceName = true := by
  intro fuel
  induction fuel with
  | zero => intro paths path h; exact h
  | succ f ih =>
      intro paths path h
      simp only [meshList.collectMasterSlavePaths]
      rcases hlk : m.lookupNode path.getPeerNodeUid with _ | pn
      · exact h
      simp only [hlk]
      rcases hct : path.contains pn with _ | _
      · rw [if_neg Bool.false_ne_true]
        by_cases hsv : (pn.isSlave && pn.hasValidDeviceName) = true
        · rw [if_pos hsv]
          have hsv2 : pn.isSlave = true ∧ pn.hasValidDeviceName = true := by simpa using hsv
          refine foldl_mem_invariant _ _ pn.NodeInterfaces paths h ?_
          intro b peerInterface _ hb
          refine foldl_mem_invariant _ _ peerInterface.NodeLinks b hb ?_
          intro b2 peerLink _ hb2
          by_cases hc : peerLink.isConnectedTo path.nodeInterface = true
          · rw [if_pos hc]
            intro q hq
            rcases List.mem_append.mp hq with hq | hq
            · exact hb2 q hq
            · rcases List.mem_singleton.mp hq with rfl
              exact ⟨rfl, hsv2.1, hsv2.2⟩
          · rw [if_neg hc]
            exact hb2
        · rw [if_neg hsv]
          refine foldl_mem_invariant _ _ pn.NodeInterfaces paths h ?_
          intro b peerInterface _ hb
          refine foldl_mem_invariant _ _ peerInterface.NodeLinks b hb ?_
          intro b2 peerLink _ hb2
          by_cases hc : peerLink.isConnected = true
          · rw [if_pos hc]
            exact ih b2 (meshPath.cons path pn peerInterface peerLink) hb2
          · rw [if_neg hc]
            exact hb2
      · rw [if_pos rfl]
        exact h

theorem getMasterSlavePathsFuel_results (m : meshList) (fuel : Nat) :
    ∀ q ∈ m.getMasterSlavePathsFuel fuel,
      q.parent.isSome = true ∧ q.node.isSlave = true ∧ q.node.hasValidDeviceName = true := by
  unfold meshList.getMasterSlavePathsFuel
  refine foldl_mem_invariant _ _ m.Nodes [] (by simp) ?_
  intro b masterNode _ hb
  by_cases hm : masterNode.isMaster = true
  · rw [if_pos hm]
    refine foldl_mem_invariant _ _ masterNode.NodeInterfaces b hb ?_
    intro b2 masterInterface _ hb2
    refine foldl_mem_invariant _ _ masterInterface.NodeLinks b2 hb2 ?_
    intro b3 masterLink _ hb3
    by_cases hc : masterLink.isConnected = true
    · rw [if_pos hc]
      exact collect_results m fuel b3 _ hb3
    · rw [if_neg hc]
      exact hb3
  · rw [if_neg hm]
    exact hb

/-- Claim C10: every result of the coordinator walk has a non-nil parent and
its own device is a validly named repeater; seed and relay steps never
appear in the result list themselves. -/
theorem C10_results_are_valid_repeaters (m : meshList) (p : meshPath)
    (hp : p ∈ m.getMasterSlavePaths) :
    p.parent.isSome = true ∧ p.node.isSlave = true ∧ p.node.hasValidDeviceName = true :=
  getMasterSlavePathsFuel_results m (m.Nodes.length + 1) p hp

/-- Claim C10 witness: the demo result step has a parent and is a validly
named repeater. -/
theorem C10_witness :
    wResult.parent.isSome = true ∧ wResult.node.isSlave = true ∧
      wResult.node.hasValidDeviceName = true :=
  C10_results_are_valid_repeaters wModel wResult (by decide)

theorem collect_chain (m : meshList) :
    ∀ (fuel : Nat) (paths : List meshPath) (path : meshPath),
      path.getRoot.node.isMaster = true → path.chainUids.Nodup →
      (∀ q ∈ paths, q.getRoot.node.isMaster = true ∧ q.chainUids.Nodup) →
      ∀ q ∈ m.collectMasterSlavePaths fuel paths path,
        q.getRoot.node.isMaster = true ∧ q.chainUids.Nodup := by
  intro fuel
  induction fuel with
  | zero => intro paths path _ _ h; exact h
  | succ f ih =>
      intro paths path hroot hnd h
      simp only [meshList.collectMasterSlavePaths]
      rcases hlk : m.lookupNode path.getPeerNodeUid with _ | pn
      · exact h
      simp only [hlk]
      rcases hct : path.contains pn with _ | _
      · rw [if_neg Bool.false_ne_true]
        have hext : ∀ (pi : meshListNodeInterface) (pl : meshListNodeLink),
            (meshPath.cons path pn pi pl).getRoot.node.isMaster = true ∧
              (meshPath.cons path pn pi pl).chainUids.Nodup := by
          intro pi pl
          refine ⟨hroot, ?_⟩
          exact List.nodup_cons.mpr ⟨contains_false_not_mem hct, hnd⟩
        by_cases hsv : (pn.isSlave && pn.hasValidDeviceName) = true
        · rw [if_pos hsv]
          refine foldl_mem_invariant _ _ pn.NodeInterfaces paths h ?_
          intro b peerInterface _ hb
          refine foldl_mem_invariant _ _ peerInterface.NodeLinks b hb ?_
          intro b2 peerLink _ hb2
          by_cases hc : peerLink.isConnectedTo path.nodeInterface = true
          · rw [if_pos hc]
            intro q hq
            rcases List.mem_append.mp hq with hq | hq
            · exact hb2 q hq
            · rcases List.mem_singleton.mp hq with rfl
              exact hext peerInterface peerLink
          · rw [if_neg hc]
            exact hb2
        · rw [if_neg hsv]
          refine foldl_mem_invariant _ _ pn.NodeInterfaces paths h ?_
          intro b peerInterface _ hb
          refine foldl_mem_invariant _ _ peerInterface.NodeLinks b hb ?_
          intro b2 peerLink _ hb2
          by_cases hc : peerLink.isConnected = true
          · rw [if_pos hc]
            exact ih b2 (meshPath.cons path pn peerInterface peerLink)
              (hext peerInterface peerLink).1 (hext peerInterface peerLink).2 hb2
          · rw [if_neg hc]
            exact hb2
      · rw [if_pos rfl]
        exact h

theorem getMasterSlavePathsFuel_chain (m : meshList) (fuel : Nat) :
    ∀ q ∈ m.getMasterSlavePathsFuel fuel,
      q.getRoot.node.isMaster = true ∧ q.chainUids.Nodup := by
  unfold meshList.getMasterSlavePathsFuel
  refine foldl_mem_invariant _ _ m.Nodes [] (by simp) ?_
  intro b masterNode _ hb
  by_cases hm : masterNode.isMaster = true
  · rw [if_pos hm]
    refine foldl_mem_invariant _ _ masterNode.NodeInterfaces b hb ?_
    intro b2 masterInterface _ hb2
    refine foldl_mem_invariant _ _ masterInterface.NodeLinks b2 hb2 ?_
    intro b3 masterLink _ hb3
    by_cases hc : masterLink.isConnected = true
    · rw [if_pos hc]
      exact collect_chain m fuel b3 (meshPath.root masterNode masterInterface masterLink)
        hm (List.nodup_singleton _) hb3
    · rw [if_neg hc]
      exact hb3
  · rw [if_neg hm]
    exact hb

/-- Claim C4: every result of the coordinator walk has an ancestor chain
that terminates at a coordinator step, and no two steps of that chain share
a device uid (cycle-freedom). -/
theorem C4_chain_master_rooted_and_acyclic (m : meshList) (p : meshPath)
    (hp : p ∈ m.getMasterSlavePaths) :
    p.getRoot.node.isMaster = true ∧ p.chainUids.Nodup :=
  getMasterSlavePathsFuel_chain m (m.Nodes.length + 1) p hp

/-- Claim C4 witness: the demo result's chain is rooted at the coordinator
and carries pairwise distinct device uids. -/
theorem C4_witness : wResult.getRoot.node.isMaster = true ∧ wResult.chainUids.Nodup :=
  C4_chain_master_rooted_and_acyclic wModel wResult (by decide)

theorem getLast?_cons_or {α : Type} (a : α) (l : List α) :
    (a :: l).getLast? = l.getLast?.or (some a) := by
  induction l generalizing a with
  | nil => rfl
  | cons b bs ih =>
      rw [List.getLast?_cons_cons, ih b]
      rcases bs.getLast? with _ | x <;> rfl

theorem map_const_replicate {α β : Type} (l : List α) (b : β) :
    (l.map fun _ => b) = List.replicate l.length b := by
  induction l with
  | nil => rfl
  | cons x xs ih => simp [ih, List.replicate]

theorem clientAppendState_go (cl : meshListNodeLink) :
    ∀ (pis : List meshListNodeInterface) (st : Nat × Option meshListNodeInterface),
      pis.foldl (fun st peerInterface =>
        if cl.isConnectedTo peerInterface then (st.1 + 1, some peerInterface) else st) st
      = (st.1 + (pis.filter fun pi => cl.isConnectedTo pi).length,
         ((pis.filter fun pi => cl.isConnectedTo pi).getLast?).or st.2) := by
  intro pis
  induction pis with
  | nil => intro st; simp
  | cons pi pis ih =>
      intro st
      by_cases hc : cl.isConnectedTo pi = true
      · rw [List.foldl_cons, if_pos hc, ih, List.filter_cons_of_pos hc, getLast?_cons_or]
        rcases hlast : (pis.filter fun pi => cl.isConnectedTo pi).getLast? with _ | x
        · simp [Nat.add_comm, Nat.add_assoc, Nat.add_left_comm]
        · simp [Nat.add_comm, Nat.add_assoc, Nat.add_left_comm]
      · rw [List.foldl_cons, if_neg hc, ih, List.filter_cons_of_neg (by simpa using hc)]

theorem clientAppendState_eq (cl : meshListNodeLink) (pis : List meshListNodeInterface) :
    clientAppendState cl pis
      = ((pis.filter fun pi => cl.isConnectedTo pi).length,
         (pis.filter fun pi => cl.isConnectedTo pi).getLast?) := by
  unfold clientAppendState
  rw [clientAppendState_go]
  rcases (pis.filter fun pi => cl.isConnectedTo pi).getLast? with _ | x <;> simp

/-- Claim C2 (corrected): `getClientPaths` computed as a comprehension.  For
every qualifying client device, filter-passing interface and connected link
whose peer is present, the result list gains one entry per peer interface
the link touches — but, because every match mutates and appends one shared
client object, all of those entries are equal and their parent step carries
the LAST touching peer interface, not each its own one. -/
theorem C2_clientPaths_eq_ref (m : meshList) (clientTypes : List String) :
    m.getClientPaths clientTypes = m.getClientPathsRef clientTypes := by
  unfold meshList.getClientPaths meshList.getClientPathsRef
  refine Eq.trans (foldl_step_append _ _ ?hnode m.Nodes []) (List.nil_append _)
  intro acc clientNode
  by_cases hq : (!clientNode.IsMeshed && clientNode.hasValidDeviceName) = true
  · rw [if_pos hq, if_pos hq]
    refine foldl_step_append _ _ ?hif clientNode.NodeInterfaces acc
    intro acc2 clientInterface
    by_cases hty : (clientTypes.isEmpty
        || clientTypes.any fun clientType => clientInterface.Type' == clientType) = true
    · rw [if_pos hty, if_pos hty]
      refine foldl_step_append _ _ ?hlink clientInterface.NodeLinks acc2
      intro acc3 clientLink
      by_cases hcn : clientLink.isConnected = true
      · rw [if_pos hcn, if_pos hcn]
        rcases hlk : m.lookupNode
            (meshPath.root clientNode clientInterface clientLink).getPeerNodeUid with _ | peerNode
        · simp [hlk]
        · simp only [hlk]
          rw [clientAppendState_eq]
          rcases hlast : (peerNode.NodeInterfaces.filter
              fun peerInterface => clientLink.isConnectedTo peerInterface).getLast? with _ | lastPi
          · simp
          · simp only [map_const_replicate]
      · rw [if_neg hcn, if_neg hcn]
        exact (List.append_nil _).symm
    · rw [if_neg hty, if_neg hty]
      exact (List.append_nil _).symm
  · rw [if_neg hq, if_neg hq]
    exact (List.append_nil _).symm

/-- Claim C2 counterexample: in `cexClientModel` the client link touches two
peer interfaces (uids `ci` and `ri`), and two results are appended — but
both carry parent interface `ri`; no result carries the first matching
interface `ci` as its parent, refuting per-match parents. -/
theorem C2_counterexample :
    (cexClientModel.getClientPaths []).map parentInterfaceUid = [some "ri", some "ri"] ∧
      cexMatchingUids = ["ci", "ri"] := by
  refine ⟨by decide, by decide⟩

theorem uuid_name_not_valid {node : meshListNode}
    (h : uuidParseOk (strBytes node.DeviceName) = true) :
    node.hasValidDeviceName = false := by
  unfold meshListNode.hasValidDeviceName
  by_cases he : (node.DeviceName == "") = true
  · rw [if_pos he]
  · rw [if_neg he, h]
    rfl

/-- Claim C8: a repeater whose display name is a syntactically valid UUID
string is never recorded as a terminal leaf — no result step of the
coordinator walk carries its display name, even when it is directly linked
to a coordinator — and whenever the walk reaches it as a peer it takes the
relay branch, recursing through the device's connected links. -/
theorem C8_uuid_named_repeater_is_relay (m : meshList) (pn : meshListNode)
    (hu : uuidParseOk (strBytes pn.DeviceName) = true) (hs : pn.isSlave = true) :
    (∀ p ∈ m.getMasterSlavePaths, p.node.DeviceName ≠ pn.DeviceName) ∧
      (∀ (fuel : Nat) (paths : List meshPath) (path : meshPath),
        m.lookupNode path.getPeerNodeUid = some pn → path.contains pn = false →
        m.collectMasterSlavePaths (fuel + 1) paths path
          = m.collectRelayStep fuel paths path pn) := by
  constructor
  · intro p hp heq
    have hv := (getMasterSlavePathsFuel_results m (m.Nodes.length + 1) p hp).2.2
    have hu2 : uuidParseOk (strBytes p.node.DeviceName) = true := by rw [heq]; exact hu
    have hfalse := uuid_name_not_valid hu2
    rw [hv] at hfalse
    exact Bool.noConfusion hfalse
  · intro fuel paths path hlk hct
    exact collect_relay_branch m fuel paths path hlk hct (by simp [uuid_name_not_valid hu])

/-- Claim C8 witness: in the relay snapshot the walk's only result is the
named repeater `s8`, not the UUID-named `u8`, and the step arriving at `u8`
recurses through its connected links. -/
theorem C8_witness :
    w8Result.node.DeviceName ≠ w8Relay.DeviceName ∧
      w8Model.collectMasterSlavePaths 3 [] w8Seed = w8Model.collectRelayStep 2 [] w8Seed w8Relay :=
  ⟨(C8_uuid_named_repeater_is_relay w8Model w8Relay (by decide) (by decide)).1 w8Result (by decide),
   (C8_uuid_named_repeater_is_relay w8Model w8Relay (by decide) (by decide)).2 2 [] w8Seed
     (by decide) (by decide)⟩

theorem getMasterSlavePathsFuel_stable (m : meshList) (fuel : Nat)
    (h : m.Nodes.length + 1 ≤ fuel) :
    m.getMasterSlavePathsFuel fuel = m.getMasterSlavePaths := by
  have hded : (m.Nodes.map meshListNode.Uid).dedup.length ≤ m.Nodes.length := by
    have h1 := (List.dedup_sublist (m.Nodes.map meshListNode.Uid)).length_le
    simpa using h1
  unfold meshList.getMasterSlavePaths meshList.getMasterSlavePathsFuel
  refine foldl_rel Eq _ _ m.Nodes [] [] rfl ?_
  intro b c masterNode _ hbc
  subst hbc
  by_cases hm : masterNode.isMaster = true
  · rw [if_pos hm, if_pos hm]
    refine foldl_rel Eq _ _ masterNode.NodeInterfaces b b rfl ?_
    intro b2 c2 masterInterface _ hbc2
    subst hbc2
    refine foldl_rel Eq _ _ masterInterface.NodeLinks b2 b2 rfl ?_
    intro b3 c3 masterLink _ hbc3
    subst hbc3
    by_cases hc : masterLink.isConnected = true
    · rw [if_pos hc, if_pos hc]
      have hb : ∀ (path : meshPath),
          (m.freeUids path).length + 1 ≤ (m.Nodes.map meshListNode.Uid).dedup.length + 1 := by
        intro path
        have h2 : (m.freeUids path).length ≤ (m.Nodes.map meshListNode.Uid).dedup.length := by
          unfold meshList.freeUids
          exact List.length_filter_le _ _
        omega
      rw [collect_stable m ((m.Nodes.map meshListNode.Uid).dedup.length + 1) _ b3 fuel
            (hb _) (by omega),
          collect_stable m ((m.Nodes.map meshListNode.Uid).dedup.length + 1) _ b3
            (m.Nodes.length + 1) (hb _) (by omega)]
    · rw [if_neg hc, if_neg hc]
  · rw [if_neg hm, if_neg hm]

/-- Claim C9: resolution is total and raises no error.  `getPeerNodeUid`
still returns a value (the side-1 uid) when the step's device is on neither
side of its link; a missing peer merely ends the branch with the result list
unchanged; and past the cycle-guard bound the walk's entry point computes
the same list for every fuel value, so the resolver is a well-defined total
function even on cyclic or duplicate-laden snapshots. -/
theorem C9_resolvers_total (m : meshList) (fuel : Nat) (p : meshPath)
    (paths : List meshPath) (path : meshPath)
    (hp1 : p.node.Uid ≠ p.nodeLink.Node1Uid) (hp2 : p.node.Uid ≠ p.nodeLink.Node2Uid)
    (hlk : m.lookupNode path.getPeerNodeUid = none)
    (hfuel : m.Nodes.length + 1 ≤ fuel) :
    p.getPeerNodeUid = p.nodeLink.Node1Uid ∧
      m.collectMasterSlavePaths (fuel + 1) paths path = paths ∧
      m.getMasterSlavePathsFuel fuel = m.getMasterSlavePaths := by
  refine ⟨?_, ?_, getMasterSlavePathsFuel_stable m fuel hfuel⟩
  · unfold meshPath.getPeerNodeUid
    rw [if_neg hp1]
  · simp [meshList.collectMasterSlavePaths, hlk]

/-- Claim C9 witness: a step whose device is on neither link side yields the
side-1 uid; a dangling peer reference ends the branch with no results; the
entry point's value is fuel-independent past the bound. -/
theorem C9_witness :
    w9Off.getPeerNodeUid = w9Off.nodeLink.Node1Uid ∧
      w9Model.collectMasterSlavePaths 11 [] w9Path = [] ∧
      w9Model.getMasterSlavePathsFuel 10 = w9Model.getMasterSlavePaths :=
  C9_resolvers_total w9Model 10 w9Off [] w9Path (by decide) (by decide) (by decide) (by decide)

theorem builtOf_Nodes (m : meshList) : m.builtOf.Nodes = m.Nodes := rfl

theorem builtOf_cacheOK (m : meshList) : m.builtOf.cacheOK := Or.inr rfl

theorem lookupNodeS_spec : ∀ {m : meshList}, m.cacheOK → ∀ (uid : String),
    m.lookupNodeS uid = (m.lookupNode uid, m.builtOf) := by
  intro m h uid
  rcases m with ⟨sv, nodes, tbl⟩
  rcases h with h | h <;> dsimp only at h <;> subst h <;> rfl

theorem lookupNode_congr {m1 m2 : meshList} (h : m1.Nodes = m2.Nodes) (uid : String) :
    m1.lookupNode uid = m2.lookupNode uid := by
  unfold meshList.lookupNode
  rw [h]

theorem collect_congr {m1 m2 : meshList} (h : m1.Nodes = m2.Nodes) :
    ∀ (fuel : Nat) (paths : List meshPath) (path : meshPath),
      m1.collectMasterSlavePaths fuel paths path = m2.collectMasterSlavePaths fuel paths path := by
  intro fuel
  induction fuel with
  | zero => intro paths path; rfl
  | succ f ih =>
      intro paths path
      simp only [meshList.collectMasterSlavePaths]
      rw [lookupNode_congr h]
      rcases hlk : m2.lookupNode path.getPeerNodeUid with _ | pn
      · simp only [hlk]
      simp only [hlk]
      rcases hct : path.contains pn with _ | _
      · rw [if_neg Bool.false_ne_true, if_neg Bool.false_ne_true]
        by_cases hsv : (pn.isSlave && pn.hasValidDeviceName) = true
        · rw [if_pos hsv, if_pos hsv]
        · rw [if_neg hsv, if_neg hsv]
          refine foldl_rel Eq _ _ pn.NodeInterfaces paths paths rfl ?_
          intro b c peerInterface _ hbc
          subst hbc
          refine foldl_rel Eq _ _ peerInterface.NodeLinks b b rfl ?_
          intro b2 c2 peerLink _ hbc2
          subst hbc2
          by_cases hcon : peerLink.isConnected = true
          · rw [if_pos hcon, if_pos hcon]
            exact ih b2 _
          · rw [if_neg hcon, if_neg hcon]
      · rw [if_pos rfl, if_pos rfl]

theorem collectS_spec (mo : meshList) :
    ∀ (fuel : Nat) (m : meshList) (paths : List meshPath) (path : meshPath),
      m.Nodes = mo.Nodes → m.cacheOK →
      (m.collectMasterSlavePathsS fuel paths path).1
          = mo.collectMasterSlavePaths fuel paths path ∧
        (m.collectMasterSlavePathsS fuel paths path).2.Nodes = mo.Nodes ∧
        (m.collectMasterSlavePathsS fuel paths path).2.cacheOK := by
  intro fuel
  induction fuel with
  | zero =>
      intro m paths path hN hok
      exact ⟨rfl, hN, hok⟩
  | succ f ih =>
      intro m paths path hN hok
      simp only [meshList.collectMasterSlavePathsS, meshList.collectMasterSlavePaths]
      rw [lookupNodeS_spec hok]
      rcases hlk : m.lookupNode path.getPeerNodeUid with _ | pn
      · have hlk2 : mo.lookupNode path.getPeerNodeUid = none := by
          rw [← lookupNode_congr hN]
          exact hlk
        simp only [hlk, hlk2]
        exact ⟨by simp, (builtOf_Nodes m).trans hN, builtOf_cacheOK m⟩
      have hlk2 : mo.lookupNode path.getPeerNodeUid = some pn := by
        rw [← lookupNode_congr hN]
        exact hlk
      simp only [hlk, hlk2]
      rcases hct : path.contains pn with _ | _
      · rw [if_neg Bool.false_ne_true, if_neg Bool.false_ne_true]
        by_cases hsv : (pn.isSlave && pn.hasValidDeviceName) = true
        · rw [if_pos hsv, if_pos hsv]
          exact ⟨by simp, (builtOf_Nodes m).trans hN, builtOf_cacheOK m⟩
        · rw [if_neg hsv, if_neg hsv]
          refine foldl_rel
            (fun (acc : List meshPath × meshList) (l : List meshPath) =>
              acc.1 = l ∧ acc.2.Nodes = mo.Nodes ∧ acc.2.cacheOK)
            _ _ pn.NodeInterfaces (paths, m.builtOf) paths
            ⟨rfl, (builtOf_Nodes m).trans hN, builtOf_cacheOK m⟩ ?_
          intro b c peerInterface _ hbc
          refine foldl_rel
            (fun (acc : List meshPath × meshList) (l : List meshPath) =>
              acc.1 = l ∧ acc.2.Nodes = mo.Nodes ∧ acc.2.cacheOK)
            _ _ peerInterface.NodeLinks b c hbc ?_
          intro b2 c2 peerLink _ hbc2
          by_cases hcon : peerLink.isConnected = true
          · rw [if_pos hcon, if_pos hcon]
            obtain ⟨e1, e2, e3⟩ := ih b2.2 b2.1 (meshPath.cons path pn peerInterface peerLink)
              hbc2.2.1 hbc2.2.2
            refine ⟨?_, e2, e3⟩
            rw [e1, hbc2.1]
          · rw [if_neg hcon, if_neg hcon]
            exact hbc2
      · rw [if_pos rfl, if_pos rfl]
        exact ⟨by simp, (builtOf_Nodes m).trans hN, builtOf_cacheOK m⟩

theorem getMasterSlavePaths_congr {m1 m2 : meshList} (h : m1.Nodes = m2.Nodes) :
    m1.getMasterSlavePaths = m2.getMasterSlavePaths := by
  unfold meshList.getMasterSlavePaths meshList.getMasterSlavePathsFuel
  rw [h]
  refine foldl_rel Eq _ _ m2.Nodes [] [] rfl ?_
  intro b c masterNode _ hbc
  subst hbc
  by_cases hm : masterNode.isMaster = true
  · rw [if_pos hm, if_pos hm]
    refine foldl_rel Eq _ _ masterNode.NodeInterfaces b b rfl ?_
    intro b2 c2 masterInterface _ h2
    subst h2
    refine foldl_rel Eq _ _ masterInterface.NodeLinks b2 b2 rfl ?_
    intro b3 c3 masterLink _ h3
    subst h3
    by_cases hc : masterLink.isConnected = true
    · rw [if_pos hc, if_pos hc]
      exact collect_congr h _ b3 _
    · rw [if_neg hc, if_neg hc]
  · rw [if_neg hm, if_neg hm]

theorem getMasterSlavePathsS_spec (m : meshList) (hok : m.cacheOK) :
    (m.getMasterSlavePathsS).1 = m.getMasterSlavePaths ∧
      (m.getMasterSlavePathsS).2.Nodes = m.Nodes ∧ (m.getMasterSlavePathsS).2.cacheOK := by
  unfold meshList.getMasterSlavePathsS meshList.getMasterSlavePaths meshList.getMasterSlavePathsFuel
  refine foldl_rel
    (fun (acc : List meshPath × meshList) (l : List meshPath) =>
      acc.1 = l ∧ acc.2.Nodes = m.Nodes ∧ acc.2.cacheOK)
    _ _ m.Nodes ([], m) [] ⟨rfl, rfl, hok⟩ ?_
  intro b c masterNode _ hbc
  by_cases hm : masterNode.isMaster = true
  · rw [if_pos hm, if_pos hm]
    refine foldl_rel
      (fun (acc : List meshPath × meshList) (l : List meshPath) =>
        acc.1 = l ∧ acc.2.Nodes = m.Nodes ∧ acc.2.cacheOK)
      _ _ masterNode.NodeInterfaces b c hbc ?_
    intro b2 c2 masterInterface _ h2
    refine foldl_rel
      (fun (acc : List meshPath × meshList) (l : List meshPath) =>
        acc.1 = l ∧ acc.2.Nodes = m.Nodes ∧ acc.2.cacheOK)
      _ _ masterInterface.NodeLinks b2 c2 h2 ?_
    intro b3 c3 masterLink _ h3
    by_cases hc : masterLink.isConnected = true
    · rw [if_pos hc, if_pos hc]
      obtain ⟨e1, e2, e3⟩ := collectS_spec m (m.Nodes.length + 1) b3.2 b3.1
        (meshPath.root masterNode masterInterface masterLink) h3.2.1 h3.2.2
      refine ⟨?_, e2, e3⟩
      rw [e1, h3.1]
    · rw [if_neg hc, if_neg hc]
      exact h3
  · rw [if_neg hm, if_neg hm]
    exact hbc

theorem getClientPaths_congr {m1 m2 : meshList} (h : m1.Nodes = m2.Nodes)
    (clientTypes : List String) :
    m1.getClientPaths clientTypes = m2.getClientPaths clientTypes := by
  unfold meshList.getClientPaths
  rw [h]
  refine foldl_rel Eq _ _ m2.Nodes [] [] rfl ?_
  intro b c clientNode _ hbc
  subst hbc
  by_cases hq : (!clientNode.IsMeshed && clientNode.hasValidDeviceName) = true
  · rw [if_pos hq, if_pos hq]
    refine foldl_rel Eq _ _ clientNode.NodeInterfaces b b rfl ?_
    intro b2 c2 clientInterface _ h2
    subst h2
    by_cases hty : (clientTypes.isEmpty
        || clientTypes.any fun clientType => clientInterface.Type' == clientType) = true
    · rw [if_pos hty, if_pos hty]
      refine foldl_rel Eq _ _ clientInterface.NodeLinks b2 b2 rfl ?_
      intro b3 c3 clientLink _ h3
      subst h3
      by_cases hcn : clientLink.isConnected = true
      · rw [if_pos hcn, if_pos hcn, lookupNode_congr h]
      · rw [if_neg hcn, if_neg hcn]
    · rw [if_neg hty, if_neg hty]
  · rw [if_neg hq, if_neg hq]

theorem getClientPathsS_spec (m : meshList) (clientTypes : List String) (hok : m.cacheOK) :
    (m.getClientPathsS clientTypes).1 = m.getClientPaths clientTypes ∧
      (m.getClientPathsS clientTypes).2.Nodes = m.Nodes ∧
      (m.getClientPathsS clientTypes).2.cacheOK := by
  unfold meshList.getClientPathsS meshList.getClientPaths
  refine foldl_rel
    (fun (acc : List meshPath × meshList) (l : List meshPath) =>
      acc.1 = l ∧ acc.2.Nodes = m.Nodes ∧ acc.2.cacheOK)
    _ _ m.Nodes ([], m) [] ⟨rfl, rfl, hok⟩ ?_
  intro b c clientNode _ hbc
  by_cases hq : (!clientNode.IsMeshed && clientNode.hasValidDeviceName) = true
  · rw [if_pos hq, if_pos hq]
    refine foldl_rel
      (fun (acc : List meshPath × meshList) (l : List meshPath) =>
        acc.1 = l ∧ acc.2.Nodes = m.Nodes ∧ acc.2.cacheOK)
      _ _ clientNode.NodeInterfaces b c hbc ?_
    intro b2 c2 clientInterface _ h2
    by_cases hty : (clientTypes.isEmpty
        || clientTypes.any fun clientType => clientInterface.Type' == clientType) = true
    · rw [if_pos hty, if_pos hty]
      refine foldl_rel
        (fun (acc : List meshPath × meshList) (l : List meshPath) =>
          acc.1 = l ∧ acc.2.Nodes = m.Nodes ∧ acc.2.cacheOK)
        _ _ clientInterface.NodeLinks b2 c2 h2 ?_
      intro b3 c3 clientLink _ h3
      by_cases hcn : clientLink.isConnected = true
      · rw [if_pos hcn, if_pos hcn]
        rw [lookupNodeS_spec h3.2.2]
        have hlkc := lookupNode_congr h3.2.1
          (meshPath.root clientNode clientInterface clientLink).getPeerNodeUid
        rcases hlk : m.lookupNode
            (meshPath.root clientNode clientInterface clientLink).getPeerNodeUid with _ | pn
        · have hlk3 : b3.2.lookupNode
              (meshPath.root clientNode clientInterface clientLink).getPeerNodeUid = none :=
            hlkc.trans hlk
          simp only [hlk3, hlk]
          exact ⟨h3.1, (builtOf_Nodes b3.2).trans h3.2.1, builtOf_cacheOK b3.2⟩
        · have hlk3 : b3.2.lookupNode
              (meshPath.root clientNode clientInterface clientLink).getPeerNodeUid = some pn :=
            hlkc.trans hlk
          simp only [hlk3, hlk]
          rcases hca : clientAppendState clientLink pn.NodeInterfaces with ⟨count, _ | lastPi⟩
          · exact ⟨h3.1, (builtOf_Nodes b3.2).trans h3.2.1, builtOf_cacheOK b3.2⟩
          · refine ⟨?_, (builtOf_Nodes b3.2).trans h3.2.1, builtOf_cacheOK b3.2⟩
            rw [h3.1]
      · rw [if_neg hcn, if_neg hcn]
        exact h3
    · rw [if_neg hty, if_neg hty]
      exact h2
  · rw [if_neg hq, if_neg hq]
    exact hbc

/-- Claim C7: running either resolver twice against the same snapshot gives
identical result lists in identical order, even though the first run may
have built the lazy lookup index as a side effect: the second run, started
from the state the first run left behind, returns the first run's list. -/
theorem C7_resolvers_idempotent (m : meshList) (clientTypes : List String) (h : m.cacheOK) :
    ((m.getMasterSlavePathsS).2.getMasterSlavePathsS).1 = (m.getMasterSlavePathsS).1 ∧
      ((m.getClientPathsS clientTypes).2.getClientPathsS clientTypes).1
        = (m.getClientPathsS clientTypes).1 := by
  obtain ⟨e1, eN, eok⟩ := getMasterSlavePathsS_spec m h
  obtain ⟨f1, _, _⟩ := getMasterSlavePathsS_spec (m.getMasterSlavePathsS).2 eok
  obtain ⟨g1, gN, gok⟩ := getClientPathsS_spec m clientTypes h
  obtain ⟨k1, _, _⟩ := getClientPathsS_spec (m.getClientPathsS clientTypes).2 clientTypes gok
  constructor
  · rw [e1, f1]
    exact getMasterSlavePaths_congr eN
  · rw [g1, k1]
    exact getClientPaths_congr gN clientTypes

/-- Claim C7 witness: on the demo snapshot, re-running each resolver on the
state left by the first run returns the first run's list. -/
theorem C7_witness :
    ((wModel.getMasterSlavePathsS).2.getMasterSlavePathsS).1 = (wModel.getMasterSlavePathsS).1 ∧
      ((wModel.getClientPathsS []).2.getClientPathsS []).1 = (wModel.getClientPathsS []).1 :=
  C7_resolvers_idempotent wModel [] (Or.inl rfl)

end FritzboxPlugin
